import Mathlib

/-
Shallow embedding of the backup-orchestration core of
`src/hooks/BackupService.js` (the `BackupService` singleton class).

Modelling conventions:
- A `World` fixes, for one run, everything the environment decides: the
  permission grants, the device's contact and media lists, the HTTP status
  the server answers on each endpoint, the token the server hands out, and
  whether each individual media upload round-trips successfully.
- The service's mutable instance fields (`this.deviceToken`,
  `this.isInitialized`), the persisted `AsyncStorage` key `deviceToken`,
  and the observable effects (HTTP requests issued, progress callbacks,
  status-text callbacks) live in a state record `St`.
- Async JS methods become computations in `M α := St → Except String α × St`;
  a JS `throw new Error(msg)` is `Except.error msg`, `try/catch` is `mtry`.
  `await fetch(...)` is modelled as: record the request (with the headers'
  token), then consult the `World` for the response status; `response.ok`
  is `respOk` (status in 200..299).
- The caller-supplied callbacks `onProgress` / `onStatusUpdate` are taken
  as monadic functions; the canonical observers simply append the reported
  values to the logs in `St`.
- The three count calls of `performFullBackup` run under `Promise.all` in
  JS but are effect-free and mutually independent, so they are sequenced.
- The inter-batch `setTimeout` delay (100ms) has no observable effect in
  this model and is dropped; real time is out of scope.
-/

namespace BackupApp

/-- Media kinds supported by `expo-media-library` as used by the service. -/
inductive MediaType where
  | photo
  | video
deriving DecidableEq, Repr

/-- A device contact as returned by `Contacts.getContactsAsync` (id, name,
phone numbers, emails — the fields requested at BackupService.js:248). -/
structure Contact where
  id : String
  name : String
  phoneNumbers : List String
  emails : List String
deriving DecidableEq, Repr

/-- A media asset as returned by `MediaLibrary.getAssetsAsync`. The field
`uploadOk` is the world's verdict on whether uploading this particular
asset succeeds (server accepts it) — per-asset upload failure is a claim
subject. -/
structure Asset where
  id : String
  filename : String
  mediaType : MediaType
  uploadOk : Bool
deriving DecidableEq, Repr

/-- Everything the environment decides during one run: permission grants,
device data, and the server's behaviour per endpoint. HTTP endpoints are
modelled by the status code the server would answer. -/
structure World where
  regStatus : Nat
  regToken : String
  contactsPerm : Bool
  contactsEnumOk : Bool
  contacts : List Contact
  mediaPerm : Bool
  mediaEnumOk : Bool
  photos : List Asset
  videos : List Asset
  startStatus : Nat
  sessionId : String
  contactsStatus : Nat
  completeStatus : Nat
  completePayload : String
  markFailedFetchOk : Bool
deriving DecidableEq, Repr

/-- JS `response.ok`: true exactly for HTTP statuses in the range 200-299. -/
def respOk (status : Nat) : Bool :=
  decide (200 ≤ status) && decide (status < 300)

/-- An HTTP request issued by the service, recording the `X-Device-Token`
header value it carried (`none` models a null token). -/
inductive Request where
  | register (token : Option String)
  | start (token : Option String) (totalContacts totalPhotos totalVideos : Nat)
  | contacts (token : Option String) (sessionId : String) (payload : List Contact)
  | media (token : Option String) (sessionId : String) (fileName mimeType : String) (asset : Asset)
  | complete (token : Option String) (sessionId : String) (status : String) (errMsg : Option String)
deriving DecidableEq, Repr

/-- Token header carried by a request. -/
def Request.token : Request → Option String
  | .register t => t
  | .start t _ _ _ => t
  | .contacts t _ _ => t
  | .media t _ _ _ _ => t
  | .complete t _ _ _ => t

/-- One three-argument `onProgress` report (type label, cumulative
processed count, total). -/
structure Progress where
  type : String
  processed : Nat
  total : Nat
deriving DecidableEq, Repr

/-- Mutable service state plus the observable effect logs of the run:
`deviceToken`/`isInitialized` are the instance fields, `storage` is the
persisted `AsyncStorage` key `deviceToken`, `requests` the HTTP requests
issued so far, `progress` the three-argument progress reports, `pairEvents`
the raw two-argument `onProgress` calls of `backupContacts` when it is
driven directly, and `statuses` the `onStatusUpdate` strings. -/
structure St where
  deviceToken : Option String
  isInitialized : Bool
  storage : Option String
  requests : List Request
  progress : List Progress
  pairEvents : List (String × Nat)
  statuses : List String
deriving DecidableEq, Repr

/-- The effect monad: state passing plus string-message exceptions. -/
def M (α : Type) : Type := St → Except String α × St

instance : Monad M where
  pure a := fun s => (Except.ok a, s)
  bind x f := fun s =>
    match x s with
    | (Except.ok a, s2) => f a s2
    | (Except.error e, s2) => (Except.error e, s2)

/-- JS `throw new Error(msg)`. -/
def mthrow {α : Type} (msg : String) : M α := fun s => (Except.error msg, s)

/-- JS `try { body } catch (e) { handler }`: state mutations made before
the throw survive into the handler, as in JS. -/
def mtry {α : Type} (body : M α) (handler : String → M α) : M α := fun s =>
  match body s with
  | (Except.ok a, s2) => (Except.ok a, s2)
  | (Except.error e, s2) => handler e s2

def getState : M St := fun s => (Except.ok s, s)

def modifyState (f : St → St) : M Unit := fun s => (Except.ok (), f s)

/-- Record an issued HTTP request. -/
def emitRequest (r : Request) : M Unit :=
  modifyState fun s => { s with requests := s.requests ++ [r] }

/-- Canonical `onStatusUpdate` observer. -/
def emitStatus (msg : String) : M Unit :=
  modifyState fun s => { s with statuses := s.statuses ++ [msg] }

/-- Canonical three-argument `onProgress` observer. -/
def emitProgress (p : Progress) : M Unit :=
  modifyState fun s => { s with progress := s.progress ++ [p] }

/-- Canonical two-argument `onProgress` observer (shape used by
`backupContacts`, which calls `onProgress?.('contacts', data.length)`). -/
def emitPair (ty : String) (n : Nat) : M Unit :=
  modifyState fun s => { s with pairEvents := s.pairEvents ++ [(ty, n)] }

/-- JS `this.deviceToken` read — also the `X-Device-Token` header value
produced by `getHeaders()` (BackupService.js:178-183), which attaches
`this.deviceToken` unconditionally, null or not. -/
def getToken : M (Option String) := fun s => (Except.ok s.deviceToken, s)

/-- JS `this.deviceToken = t`. -/
def setToken (t : Option String) : M Unit :=
  modifyState fun s => { s with deviceToken := t }

/-- JS `await AsyncStorage.getItem('deviceToken')`. -/
def getStoredToken : M (Option String) := fun s => (Except.ok s.storage, s)

/-- JS `registerDevice` (BackupService.js:35-62): posts the device identity
to `/device/register` with `getHeaders()` (so the request carries the
current, still-null token), and on a successful response stores the
returned token in the instance field and in `AsyncStorage`. On a
non-success response it throws; the catch block logs and rethrows. The
device-identity body fields are environment constants and are not
modelled. -/
def registerDevice (w : World) : M Unit :=
  mtry (do
    let tok ← getToken
    emitRequest (Request.register tok)
    if respOk w.regStatus then do
      setToken (some w.regToken)
      modifyState fun s => { s with storage := some w.regToken }
    else
      mthrow ("Failed to register device: " ++ toString w.regStatus))
  (fun e => mthrow e)

/-- JS truthiness of the token check `if (!this.deviceToken)`
(BackupService.js:22): a missing value (null) and the empty string are
both falsy and trigger registration. -/
def tokenFalsy : Option String → Bool
  | none => true
  | some s => s == ""

/-- JS `initialize` (BackupService.js:17-32): loads the persisted token
into `this.deviceToken`; if it is falsy (absent or empty), runs
`registerDevice`; sets `isInitialized` and returns `true`. Any error is
caught, logged and `false` is returned — the catch does not rethrow. -/
def initService (w : World) : M Bool :=
  mtry (do
    let stored ← getStoredToken
    setToken stored
    if tokenFalsy stored then
      registerDevice w
    modifyState fun s => { s with isInitialized := true }
    pure true)
  (fun _ => pure false)

/-- JS `getLocalContactsCount` (BackupService.js:146-159): requests the
contacts permission; if not granted returns 0; otherwise enumerates the
contacts and returns their number. Any error (modelled by a failing
enumeration) is caught and 0 is returned. -/
def getLocalContactsCount (w : World) : M Nat :=
  mtry (do
    if !w.contactsPerm then
      pure 0
    else do
      if !w.contactsEnumOk then
        mthrow "contacts enumeration failed"
      pure w.contacts.length)
  (fun _ => pure 0)

/-- Device media list per media type. -/
def mediaList (w : World) : MediaType → List Asset
  | .photo => w.photos
  | .video => w.videos

/-- JS `getLocalMediaCount` (BackupService.js:162-176): requests the media
permission; if not granted returns 0; otherwise asks the library for
`totalCount` of the given type. Any error is caught and 0 is returned. -/
def getLocalMediaCount (w : World) (ty : MediaType) : M Nat :=
  mtry (do
    if !w.mediaPerm then
      pure 0
    else do
      if !w.mediaEnumOk then
        mthrow "media enumeration failed"
      pure (mediaList w ty).length)
  (fun _ => pure 0)

/-- JS `startBackupSession` (BackupService.js:186-214): initializes if the
instance is not initialized yet, posts the declared totals to
`/backup/start` with `getHeaders()`, throws on a non-success response,
else returns the server-assigned session id. In JS the stats argument is
an object; its three numeric fields are passed here directly. -/
def startBackupSession (w : World) (totalContacts totalPhotos totalVideos : Nat) : M String :=
  mtry (do
    let s ← getState
    if !s.isInitialized then do
      let _ ← initService w
      pure ()
    let tok ← getToken
    emitRequest (Request.start tok totalContacts totalPhotos totalVideos)
    if !respOk w.startStatus then
      mthrow ("Failed to start backup session:AA " ++ toString w.startStatus)
    pure w.sessionId)
  (fun e => mthrow e)

/-- JS `backupContacts` (BackupService.js:240-273): throws if the contacts
permission is denied; reads the full contact set once; posts it as one
body to `/backup/contacts`; throws on a non-success response; reports
progress exactly once with the contact count; returns `true`. The catch
block logs and rethrows. -/
def backupContacts (w : World) (sessionId : String) (onP : String → Nat → M Unit) : M Bool :=
  mtry (do
    if !w.contactsPerm then
      mthrow "Contacts permission not granted"
    if !w.contactsEnumOk then
      mthrow "contacts enumeration failed"
    let data := w.contacts
    let tok ← getToken
    emitRequest (Request.contacts tok sessionId data)
    if !respOk w.contactsStatus then
      mthrow ("Failed to backup contacts: " ++ toString w.contactsStatus)
    onP "contacts" data.length
    pure true)
  (fun e => mthrow e)

/-- JS filename inference of `uploadSingleMediaFile` (BackupService.js:357-366):
`asset.filename || asset.id`, with a default extension appended when the
name has no dot. -/
def inferFileName (a : Asset) : String :=
  let base := if a.filename = "" then a.id else a.filename
  match a.mediaType with
  | .photo => if base.contains '.' then base else base ++ ".jpg"
  | .video => if base.contains '.' then base else base ++ ".mp4"

/-- JS MIME inference of `uploadSingleMediaFile`: the
`application/octet-stream` default is unreachable here because the
modelled media types are exactly photo and video. -/
def inferMimeType (a : Asset) : String :=
  match a.mediaType with
  | .photo => "image/jpeg"
  | .video => "video/mp4"

/-- JS `uploadSingleMediaFile` (BackupService.js:351-397): posts one asset
as a multipart body to `/backup/media` with only the `X-Device-Token`
header; on a non-success response it throws (the catch logs and
rethrows). Whether this particular upload round-trips is the world's
per-asset verdict `uploadOk`. -/
def uploadSingleMediaFile (sessionId : String) (a : Asset) : M Bool :=
  mtry (do
    let tok ← getToken
    emitRequest (Request.media tok sessionId (inferFileName a) (inferMimeType a) a)
    if !a.uploadOk then
      mthrow ("Upload failed: " ++ a.id)
    pure true)
  (fun e => mthrow e)

/-- JS asset enumeration of `backupMedia` (BackupService.js:285-303): for
each supported media type matching the requested category, fetch up to
10000 assets and concatenate. -/
def typeMatches (category : String) : MediaType → Bool
  | .photo => category == "all" || category == "photo" || category == "photos"
  | .video => category == "all" || category == "video" || category == "videos"

/-- Assets enumerated by `backupMedia` for a category: photos first, then
videos, each capped at 10000 (the `first` parameter of
`getAssetsAsync`). -/
def enumAssets (w : World) (category : String) : List Asset :=
  (if typeMatches category .photo then w.photos.take 10000 else []) ++
    (if typeMatches category .video then w.videos.take 10000 else [])

/-- JS `batch.map(async (asset) => { try ... catch { return false } })`
awaited by `Promise.all` (BackupService.js:320-329): every member of the
batch is attempted, a per-item failure is caught and becomes `false`. The
JS uploads of one batch are issued concurrently and their effects are
independent appends; they are modelled in list order. -/
def attemptBatch (sessionId : String) : List Asset → M (List Bool)
  | [] => pure []
  | a :: rest => do
    let r ← mtry (uploadSingleMediaFile sessionId a) (fun _ => pure false)
    let rs ← attemptBatch sessionId rest
    pure (r :: rs)

/-- JS batch loop of `backupMedia` (BackupService.js:316-339): take the next
`BATCH_SIZE = 10` assets, attempt every upload, count the successes
(`results.filter(Boolean).length`) into the cumulative `processed`,
report progress once, and recurse on the rest. Returns the final
cumulative processed count. -/
def runBatches (w : World) (sessionId category : String) (onP : String → Nat → Nat → M Unit)
    (assets : List Asset) (processed total : Nat) : M Nat :=
  if h : assets.isEmpty then
    pure processed
  else do
    let batch := assets.take 10
    let results ← attemptBatch sessionId batch
    let successCount := (results.filter (fun b => b)).length
    let processed2 := processed + successCount
    onP category processed2 total
    runBatches w sessionId category onP (assets.drop 10) processed2 total
termination_by assets.length
decreasing_by
  simp only [List.length_drop]
  have hne : assets ≠ [] := by
    intro hnil
    rw [hnil] at h
    simp at h
  have : 0 < assets.length := List.length_pos.mpr hne
  omega

/-- JS `backupMedia` (BackupService.js:277-348): throws if the media
permission is denied; enumerates the matching assets (an enumeration
error propagates to the catch, which rethrows); on zero assets reports a
single `(type, 0, 0)` progress update and returns `true`; otherwise runs
the batch loop over all assets with cumulative count starting at 0 and
total `allAssets.length`, then returns `true`. -/
def backupMedia (w : World) (sessionId category : String)
    (onP : String → Nat → Nat → M Unit) : M Bool :=
  mtry (do
    if !w.mediaPerm then
      mthrow "Media library permission not granted"
    if !w.mediaEnumOk then
      mthrow "media enumeration failed"
    let allAssets := enumAssets w category
    if allAssets.isEmpty then do
      onP category 0 0
      pure true
    else do
      let _ ← runBatches w sessionId category onP allAssets 0 allAssets.length
      pure true)
  (fun e => mthrow e)

/-- Modelled from the spec: `completeBackupSession` is invoked at
BackupService.js:116 but its definition is not among the source files
under src (the service object also calls other methods defined elsewhere
in the repository, e.g. `getDashboardStats` used by `app/(tabs)/index.tsx`).
Spec 4.5 and 6: it posts `(sessionId, status: "completed")` to
`/backup/complete` carrying the `X-Device-Token` header, returns the
server's result payload on success, and fails with a session error
carrying the HTTP status on a non-success response, with no retry. -/
def completeBackupSession (w : World) (sessionId : String) : M String := do
  let tok ← getToken
  emitRequest (Request.complete tok sessionId "completed" none)
  if !respOk w.completeStatus then
    mthrow ("Failed to complete backup session: " ++ toString w.completeStatus)
  pure w.completePayload

/-- Canonical three-argument progress observer passed where JS passes
`(type, processed, total) => onProgress?.({ type, processed, total })`
(BackupService.js:101-103, 109-111). -/
def progLogger : String → Nat → Nat → M Unit :=
  fun ty p t => emitProgress { type := ty, processed := p, total := t }

/-- Contacts progress wrapper of `performFullBackup` (BackupService.js:94-96):
`(type, processed) => onProgress?.({ type, processed, total: stats.totalContacts })`. -/
def ctLogger (total : Nat) : String → Nat → M Unit :=
  fun ty p => emitProgress { type := ty, processed := p, total := total }

/-- Inner `try` block of `performFullBackup` (BackupService.js:91-137),
factored out with the values it captures (session id and the three
declared totals): contacts unconditionally, photos/videos only when the
declared total is positive, then session completion. On any error the
catch posts a best-effort `status: "failed"` completion whose own failure
(a rejected fetch, `markFailedFetchOk = false`) is caught and only
logged, and rethrows the original error. -/
def innerBackup (w : World) (sessionId : String)
    (totalContacts totalPhotos totalVideos : Nat) : M String :=
  mtry (do
    emitStatus "Backing up contacts..."
    let _ ← backupContacts w sessionId (ctLogger totalContacts)
    if totalPhotos > 0 then do
      emitStatus "Backing up photos..."
      let _ ← backupMedia w sessionId "photos" progLogger
      pure ()
    if totalVideos > 0 then do
      emitStatus "Backing up videos..."
      let _ ← backupMedia w sessionId "videos" progLogger
      pure ()
    emitStatus "Completing backup..."
    let result ← completeBackupSession w sessionId
    emitStatus "Backup completed successfully!"
    pure result)
  (fun e => do
    mtry (do
      let tok ← getToken
      emitRequest (Request.complete tok sessionId "failed" (some e))
      if !w.markFailedFetchOk then
        mthrow "mark-failed fetch rejected"
      pure ())
      (fun _ => pure ())
    mthrow e)

/-- Count-and-session part of `performFullBackup` (BackupService.js:75-137),
factored out of the initialization step: count contacts/photos/videos
(effect-free, independent — `Promise.all` in JS), start the session with
the declared totals, then run the inner block. -/
def mainFlow (w : World) : M String := do
  let totalContacts ← getLocalContactsCount w
  let totalPhotos ← getLocalMediaCount w .photo
  let totalVideos ← getLocalMediaCount w .video
  emitStatus "Starting backup session..."
  let sessionId ← startBackupSession w totalContacts totalPhotos totalVideos
  innerBackup w sessionId totalContacts totalPhotos totalVideos

/-- JS `performFullBackup` (BackupService.js:65-143): status update,
initialize if needed (the boolean result of `initialize` is not
consulted), then the count/session/backup flow; the outer catch reports a
`Backup failed:` status and rethrows. -/
def performFullBackup (w : World) : M String :=
  mtry (do
    emitStatus "Initializing backup..."
    let s ← getState
    if !s.isInitialized then do
      let _ ← initService w
      pure ()
    mainFlow w)
  (fun e => do
    emitStatus ("Backup failed: " ++ e)
    mthrow e)

/-- Fresh service state: the constructor fields (BackupService.js:11-14)
plus empty effect logs; `storage` is whatever `AsyncStorage` holds under
`deviceToken` when the run starts. -/
def St0 (storage : Option String) : St :=
  { deviceToken := none
    isInitialized := false
    storage := storage
    requests := []
    progress := []
    pairEvents := []
    statuses := [] }

/-! Pure reference descriptions of the observable behaviour, used to state
and prove the claims. Each is proved to characterise the corresponding
monadic computation. -/

/-- Number of assets of a list whose upload succeeds. -/
def successesIn (l : List Asset) : Nat :=
  (l.filter (fun a => a.uploadOk)).length

/-- The media-upload requests the batch loop issues for a list of assets:
one per asset, in order, regardless of the per-asset outcomes. -/
def batchRequests (tok : Option String) (sessionId : String) (assets : List Asset) : List Request :=
  assets.map (fun a => Request.media tok sessionId (inferFileName a) (inferMimeType a) a)

/-- The progress reports of the batch loop: one per batch of 10, carrying
the cumulative success count and the fixed total. -/
def batchEvents (category : String) (processed total : Nat) (assets : List Asset) : List Progress :=
  if assets.isEmpty then []
  else
    { type := category
      processed := processed + successesIn (assets.take 10)
      total := total } ::
      batchEvents category (processed + successesIn (assets.take 10)) total (assets.drop 10)
termination_by assets.length
decreasing_by
  simp only [List.length_drop]
  have hne : assets ≠ [] := by
    intro hnil
    rw [hnil] at ‹¬assets.isEmpty = true›
    simp at ‹¬List.isEmpty [] = true›
  have : 0 < assets.length := List.length_pos.mpr hne
  omega

/-- Value `getLocalContactsCount` evaluates to. -/
def countContacts (w : World) : Nat :=
  if w.contactsPerm && w.contactsEnumOk then w.contacts.length else 0

/-- Value `getLocalMediaCount` evaluates to. -/
def countMedia (w : World) (ty : MediaType) : Nat :=
  if w.mediaPerm && w.mediaEnumOk then (mediaList w ty).length else 0

/-- Error message of a failing `startBackupSession`. -/
def startErrMsg (w : World) : String :=
  "Failed to start backup session:AA " ++ toString w.startStatus

/-- Error message of a failing contact upload. -/
def contactsErrMsg (w : World) : String :=
  "Failed to backup contacts: " ++ toString w.contactsStatus

/-- Error message of a failing session completion. -/
def completeErrMsg (w : World) : String :=
  "Failed to complete backup session: " ++ toString w.completeStatus

/-- Outcome of the contact-backup phase as the world decides it. -/
def contactsOutcome (w : World) : Except String Unit :=
  if !w.contactsPerm then Except.error "Contacts permission not granted"
  else if !w.contactsEnumOk then Except.error "contacts enumeration failed"
  else if !respOk w.contactsStatus then Except.error (contactsErrMsg w)
  else Except.ok ()

/-- Requests issued by the contact-backup phase. -/
def contactsPhaseReqs (w : World) (tok : Option String) (sessionId : String) : List Request :=
  if w.contactsPerm && w.contactsEnumOk then
    [Request.contacts tok sessionId w.contacts]
  else []

/-- Requests issued by one media-backup phase (its assets are nonempty
whenever the phase runs, so it is always the batching path). -/
def mediaPhaseReqs (w : World) (tok : Option String) (category : String) : List Request :=
  batchRequests tok w.sessionId (enumAssets w category)

/-- Progress reports of one media-backup phase. -/
def mediaPhaseEvents (w : World) (category : String) : List Progress :=
  batchEvents category 0 (enumAssets w category).length (enumAssets w category)

/-- Requests issued by the inner block of `performFullBackup`. -/
def innerReqs (w : World) (tok : Option String) : List Request :=
  match contactsOutcome w with
  | Except.error e =>
      contactsPhaseReqs w tok w.sessionId ++
        [Request.complete tok w.sessionId "failed" (some e)]
  | Except.ok _ =>
      contactsPhaseReqs w tok w.sessionId ++
        (if countMedia w .photo > 0 then mediaPhaseReqs w tok "photos" else []) ++
        (if countMedia w .video > 0 then mediaPhaseReqs w tok "videos" else []) ++
        (if respOk w.completeStatus then
          [Request.complete tok w.sessionId "completed" none]
        else
          [Request.complete tok w.sessionId "completed" none,
           Request.complete tok w.sessionId "failed" (some (completeErrMsg w))])

/-- Progress reports of the inner block of `performFullBackup`. -/
def innerProg (w : World) : List Progress :=
  match contactsOutcome w with
  | Except.error _ => []
  | Except.ok _ =>
      { type := "contacts", processed := w.contacts.length, total := countContacts w } ::
        ((if countMedia w .photo > 0 then mediaPhaseEvents w "photos" else []) ++
          (if countMedia w .video > 0 then mediaPhaseEvents w "videos" else []))

/-- Result of the inner block of `performFullBackup`. -/
def innerResult (w : World) : Except String String :=
  match contactsOutcome w with
  | Except.error e => Except.error e
  | Except.ok _ =>
      if respOk w.completeStatus then Except.ok w.completePayload
      else Except.error (completeErrMsg w)

/-- Status strings of the inner block of `performFullBackup`. -/
def innerStatuses (w : World) : List String :=
  "Backing up contacts..." ::
    (match contactsOutcome w with
     | Except.error _ => []
     | Except.ok _ =>
         (if countMedia w .photo > 0 then ["Backing up photos..."] else []) ++
           (if countMedia w .video > 0 then ["Backing up videos..."] else []) ++
           ["Completing backup..."] ++
           (if respOk w.completeStatus then ["Backup completed successfully!"] else []))

/-- Requests issued by a whole `performFullBackup` run that starts already
initialized (token constant `tok`). -/
def runRequests (w : World) (tok : Option String) : List Request :=
  Request.start tok (countContacts w) (countMedia w .photo) (countMedia w .video) ::
    (if respOk w.startStatus then innerReqs w tok else [])

/-- Progress reports of a whole `performFullBackup` run. -/
def runProgress (w : World) : List Progress :=
  if respOk w.startStatus then innerProg w else []

/-- Result of a whole `performFullBackup` run. -/
def runResult (w : World) : Except String String :=
  if respOk w.startStatus then innerResult w
  else Except.error (startErrMsg w)

/-- Status strings of `mainFlow`. -/
def mainStatuses (w : World) : List String :=
  "Starting backup session..." :: (if respOk w.startStatus then innerStatuses w else [])

/-- Status strings of a whole `performFullBackup` run. -/
def runStatuses (w : World) : List String :=
  "Initializing backup..." ::
    (mainStatuses w ++
      (match runResult w with
       | Except.error e => ["Backup failed: " ++ e]
       | Except.ok _ => []))

/-- Session-completion calls among a request list: their status field and
error payload. -/
def completionCalls (l : List Request) : List (String × Option String) :=
  l.filterMap fun r =>
    match r with
    | Request.complete _ _ st e => some (st, e)
    | _ => none

/-- Contact-upload request recogniser. -/
def isContactsCall : Request → Bool
  | Request.contacts _ _ _ => true
  | _ => false

/-- Media-upload request recogniser, by the asset's media type. -/
def isMediaCallOf (m : MediaType) : Request → Bool
  | Request.media _ _ _ _ a => a.mediaType == m
  | _ => false

/-- Error message of a failing device registration. -/
def regErrMsg (w : World) : String :=
  "Failed to register device: " ++ toString w.regStatus

/-! Concrete sample data for counterexamples and witnesses. -/

/-- A sample contact. -/
def cAlice : Contact :=
  { id := "c1", name := "Alice", phoneNumbers := ["555"], emails := [] }

/-- A sample photo asset with the given id and upload verdict. -/
def cPhoto (i : String) (ok : Bool) : Asset :=
  { id := i, filename := "p" ++ i ++ ".jpg", mediaType := .photo, uploadOk := ok }

/-- A world where every permission is granted and the server answers 200
everywhere: one contact, two photos, no videos. -/
def wBase : World :=
  { regStatus := 200
    regToken := "tokR"
    contactsPerm := true
    contactsEnumOk := true
    contacts := [cAlice]
    mediaPerm := true
    mediaEnumOk := true
    photos := [cPhoto "1" true, cPhoto "2" true]
    videos := []
    startStatus := 200
    sessionId := "sess1"
    contactsStatus := 200
    completeStatus := 200
    completePayload := "payload"
    markFailedFetchOk := true }

/-- A world where the session-completion endpoint answers 500 and
everything else succeeds. -/
def wCompleteFail : World := { wBase with completeStatus := 500 }

/-- A world where device registration answers 500 and everything else
succeeds. -/
def wRegFail : World := { wBase with regStatus := 500 }

/-- A world where the contacts endpoint answers 500 and everything else
succeeds. -/
def wContactsFail : World := { wBase with contactsStatus := 500 }

/-- Twelve photo assets, one of which (index 5) fails to upload: two full
batches of 10 and 2. -/
def photos12 : List Asset :=
  (List.range 12).map (fun i => cPhoto (toString i) (i != 5))

/-- A world with twelve photos, one failing upload. -/
def wBatch12 : World := { wBase with photos := photos12 }

/-- A service state that has already been initialized with a persisted
token, as after a successful `initialize` run. -/
def stInit : St :=
  { St0 (some "tok0") with deviceToken := some "tok0", isInitialized := true }

/-! Unfolding lemmas for the effect monad. -/

@[simp] theorem bind_apply {α β : Type} (x : M α) (f : α → M β) (s : St) :
    (x >>= f) s =
      match x s with
      | (Except.ok a, s2) => f a s2
      | (Except.error e, s2) => (Except.error e, s2) := rfl

@[simp] theorem pure_apply {α : Type} (a : α) (s : St) :
    (pure a : M α) s = (Except.ok a, s) := rfl

@[simp] theorem mtry_apply {α : Type} (body : M α) (handler : String → M α) (s : St) :
    mtry body handler s =
      match body s with
      | (Except.ok a, s2) => (Except.ok a, s2)
      | (Except.error e, s2) => handler e s2 := rfl

@[simp] theorem mthrow_apply {α : Type} (msg : String) (s : St) :
    mthrow (α := α) msg s = (Except.error msg, s) := rfl

@[simp] theorem ite_apply {c : Prop} [Decidable c] {α : Type} (t e : M α) (s : St) :
    (if c then t else e) s = if c then t s else e s := by
  split <;> rfl

@[simp] theorem getState_apply (s : St) : getState s = (Except.ok s, s) := rfl

@[simp] theorem getToken_apply (s : St) : getToken s = (Except.ok s.deviceToken, s) := rfl

@[simp] theorem getStoredToken_apply (s : St) : getStoredToken s = (Except.ok s.storage, s) := rfl

@[simp] theorem setToken_apply (t : Option String) (s : St) :
    setToken t s = (Except.ok (), { s with deviceToken := t }) := rfl

@[simp] theorem modifyState_apply (f : St → St) (s : St) :
    modifyState f s = (Except.ok (), f s) := rfl

@[simp] theorem emitRequest_apply (r : Request) (s : St) :
    emitRequest r s = (Except.ok (), { s with requests := s.requests ++ [r] }) := rfl

@[simp] theorem emitStatus_apply (msg : String) (s : St) :
    emitStatus msg s = (Except.ok (), { s with statuses := s.statuses ++ [msg] }) := rfl

@[simp] theorem emitProgress_apply (p : Progress) (s : St) :
    emitProgress p s = (Except.ok (), { s with progress := s.progress ++ [p] }) := rfl

@[simp] theorem emitPair_apply (ty : String) (n : Nat) (s : St) :
    emitPair ty n s = (Except.ok (), { s with pairEvents := s.pairEvents ++ [(ty, n)] }) := rfl

@[simp] theorem progLogger_apply (ty : String) (p t : Nat) (s : St) :
    progLogger ty p t s =
      (Except.ok (), { s with progress := s.progress ++ [{ type := ty, processed := p, total := t }] }) := rfl

@[simp] theorem ctLogger_apply (total : Nat) (ty : String) (p : Nat) (s : St) :
    ctLogger total ty p s =
      (Except.ok (), { s with progress := s.progress ++ [{ type := ty, processed := p, total := total }] }) := rfl

/-! Characterizations of the leaf operations. -/

theorem getLocalContactsCount_spec (w : World) (s : St) :
    getLocalContactsCount w s = (Except.ok (countContacts w), s) := by
  cases hp : w.contactsPerm <;> cases he : w.contactsEnumOk <;>
    simp [getLocalContactsCount, countContacts, hp, he]

theorem getLocalMediaCount_spec (w : World) (ty : MediaType) (s : St) :
    getLocalMediaCount w ty s = (Except.ok (countMedia w ty), s) := by
  cases hp : w.mediaPerm <;> cases he : w.mediaEnumOk <;>
    simp [getLocalMediaCount, countMedia, hp, he]

theorem registerDevice_ok (w : World) (s : St) (hr : respOk w.regStatus = true) :
    registerDevice w s =
      (Except.ok (),
       { s with deviceToken := some w.regToken, storage := some w.regToken,
                requests := s.requests ++ [Request.register s.deviceToken] }) := by
  simp [registerDevice, hr]

theorem registerDevice_fail (w : World) (s : St) (hr : respOk w.regStatus = false) :
    registerDevice w s =
      (Except.error (regErrMsg w),
       { s with requests := s.requests ++ [Request.register s.deviceToken] }) := by
  simp [registerDevice, regErrMsg, hr]

theorem initService_stored (w : World) (s : St) (t : String) (hst : s.storage = some t)
    (ht : t ≠ "") :
    initService w s =
      (Except.ok true, { s with deviceToken := some t, isInitialized := true }) := by
  simp [initService, hst, tokenFalsy, ht]

theorem initService_register_ok (w : World) (s : St)
    (hfal : tokenFalsy s.storage = true) (hr : respOk w.regStatus = true) :
    initService w s =
      (Except.ok true,
       { s with deviceToken := some w.regToken, storage := some w.regToken,
                isInitialized := true,
                requests := s.requests ++ [Request.register s.storage] }) := by
  simp [initService, hfal, registerDevice, hr]

theorem initService_register_fail (w : World) (s : St) (hst : s.storage = none)
    (hr : respOk w.regStatus = false) :
    initService w s =
      (Except.ok false,
       { s with deviceToken := none, requests := s.requests ++ [Request.register none] }) := by
  simp [initService, hst, tokenFalsy, registerDevice, hr]

theorem completeBackupSession_spec (w : World) (sid : String) (s : St) :
    completeBackupSession w sid s =
      ((if respOk w.completeStatus then Except.ok w.completePayload
        else Except.error (completeErrMsg w)),
       { s with requests := s.requests ++ [Request.complete s.deviceToken sid "completed" none] }) := by
  cases hc : respOk w.completeStatus <;>
    simp [completeBackupSession, completeErrMsg, hc]

theorem startBackupSession_initialized (w : World) (tc tp tv : Nat) (s : St)
    (hinit : s.isInitialized = true) :
    startBackupSession w tc tp tv s =
      ((if respOk w.startStatus then Except.ok w.sessionId
        else Except.error (startErrMsg w)),
       { s with requests := s.requests ++ [Request.start s.deviceToken tc tp tv] }) := by
  cases hr : respOk w.startStatus <;>
    simp [startBackupSession, startErrMsg, hinit, hr]

/-! Characterization of the media batch loop. -/

theorem uploadSingleMediaFile_spec (sid : String) (a : Asset) (s : St) :
    uploadSingleMediaFile sid a s =
      ((if a.uploadOk then Except.ok true else Except.error ("Upload failed: " ++ a.id)),
       { s with requests :=
          s.requests ++ [Request.media s.deviceToken sid (inferFileName a) (inferMimeType a) a] }) := by
  cases hu : a.uploadOk <;> simp [uploadSingleMediaFile, hu]

theorem attemptBatch_spec (sid : String) (batch : List Asset) (s : St) :
    attemptBatch sid batch s =
      (Except.ok (batch.map (fun a => a.uploadOk)),
       { s with requests := s.requests ++ batchRequests s.deviceToken sid batch }) := by
  induction batch generalizing s with
  | nil => simp [attemptBatch, batchRequests]
  | cons a rest ih =>
    cases hu : a.uploadOk <;>
      simp [attemptBatch, uploadSingleMediaFile, hu, ih, batchRequests, List.append_assoc]

theorem successes_map_filter (l : List Asset) :
    ((l.map (fun a => a.uploadOk)).filter (fun b => b)).length = successesIn l := by
  induction l with
  | nil => simp [successesIn]
  | cons a rest ih =>
    cases hu : a.uploadOk <;> simp [successesIn, List.filter, hu] <;>
      simpa [successesIn] using ih

theorem successes_take_map (n : Nat) (l : List Asset) :
    ((List.take n (l.map (fun a => a.uploadOk))).filter (fun b => b)).length =
      successesIn (l.take n) := by
  rw [← List.map_take, successes_map_filter]

theorem successesIn_append (l1 l2 : List Asset) :
    successesIn (l1 ++ l2) = successesIn l1 + successesIn l2 := by
  simp [successesIn, List.filter_append]

theorem successesIn_take_drop (n : Nat) (l : List Asset) :
    successesIn (l.take n) + successesIn (l.drop n) = successesIn l := by
  rw [← successesIn_append, List.take_append_drop]

theorem successesIn_le_length (l : List Asset) : successesIn l ≤ l.length := by
  simpa [successesIn] using List.length_filter_le (fun a => a.uploadOk) l

theorem batchRequests_append (tok : Option String) (sid : String) (l1 l2 : List Asset) :
    batchRequests tok sid (l1 ++ l2) = batchRequests tok sid l1 ++ batchRequests tok sid l2 := by
  simp [batchRequests]

theorem runBatches_spec (w : World) (sid cat : String) (assets : List Asset)
    (p t : Nat) (s : St) :
    runBatches w sid cat progLogger assets p t s =
      (Except.ok (p + successesIn assets),
       { s with requests := s.requests ++ batchRequests s.deviceToken sid assets,
                progress := s.progress ++ batchEvents cat p t assets }) := by
  have H : ∀ n (assets : List Asset), assets.length ≤ n → ∀ p (s : St),
      runBatches w sid cat progLogger assets p t s =
        (Except.ok (p + successesIn assets),
         { s with requests := s.requests ++ batchRequests s.deviceToken sid assets,
                  progress := s.progress ++ batchEvents cat p t assets }) := by
    intro n
    induction n with
    | zero =>
      intro assets hlen p s
      have : assets = [] := List.length_eq_zero.mp (Nat.le_zero.mp hlen)
      subst this
      rw [runBatches]
      simp [successesIn, batchRequests, batchEvents]
    | succ n ih =>
      intro assets hlen p s
      rw [runBatches]
      cases hemp : assets.isEmpty
      · -- nonempty list: one batch, then recurse on the rest
        have hne : assets ≠ [] := by
          intro hnil; rw [hnil] at hemp; simp at hemp
        have hpos : 0 < assets.length := List.length_pos.mpr hne
        have hrec := ih (assets.drop 10)
          (by simp only [List.length_drop]; omega)
          (p + successesIn (assets.take 10))
        have hbe : batchEvents cat p t assets =
            { type := cat, processed := p + successesIn (assets.take 10), total := t } ::
              batchEvents cat (p + successesIn (assets.take 10)) t (assets.drop 10) := by
          rw [batchEvents]
          simp [hemp]
        rw [hbe]
        simp only [hemp]
        simp [attemptBatch_spec, successes_take_map, hrec, List.append_assoc,
          Nat.add_assoc, successesIn_take_drop, ← batchRequests_append,
          List.take_append_drop]
      · -- empty list
        have : assets = [] := List.isEmpty_iff.mp hemp
        subst this
        simp [successesIn, batchRequests, batchEvents]
  exact H assets.length assets le_rfl p s

/-! Characterization of `backupMedia` and `backupContacts`. -/

theorem backupMedia_empty (w : World) (sid cat : String) (s : St)
    (hp : w.mediaPerm = true) (he : w.mediaEnumOk = true)
    (hemp : enumAssets w cat = []) :
    backupMedia w sid cat progLogger s =
      (Except.ok true,
       { s with progress := s.progress ++ [{ type := cat, processed := 0, total := 0 }] }) := by
  simp [backupMedia, hp, he, hemp]

theorem backupMedia_batches (w : World) (sid cat : String) (s : St)
    (hp : w.mediaPerm = true) (he : w.mediaEnumOk = true)
    (hne : enumAssets w cat ≠ []) :
    backupMedia w sid cat progLogger s =
      (Except.ok true,
       { s with requests := s.requests ++ batchRequests s.deviceToken sid (enumAssets w cat),
                progress := s.progress ++
                  batchEvents cat 0 (enumAssets w cat).length (enumAssets w cat) }) := by
  have hemp : (enumAssets w cat).isEmpty = false := by
    simpa [List.isEmpty_iff] using hne
  simp [backupMedia, hp, he, hemp, runBatches_spec]

theorem backupContacts_run (w : World) (sid : String) (onP : String → Nat → M Unit) (s : St)
    (hp : w.contactsPerm = true) (he : w.contactsEnumOk = true)
    (hr : respOk w.contactsStatus = true) :
    backupContacts w sid onP s =
      (match onP "contacts" w.contacts.length
          { s with requests := s.requests ++ [Request.contacts s.deviceToken sid w.contacts] } with
       | (Except.ok _, s2) => (Except.ok true, s2)
       | (Except.error e, s2) => (Except.error e, s2)) := by
  simp only [backupContacts, mtry_apply, bind_apply, ite_apply, getToken_apply,
    emitRequest_apply, mthrow_apply, pure_apply, hp, he, hr]
  simp
  rcases honP : onP "contacts" w.contacts.length
      { s with requests := s.requests ++ [Request.contacts s.deviceToken sid w.contacts] } with
    ⟨r, s2⟩
  rcases r <;> simp

theorem backupContacts_fail (w : World) (sid : String) (onP : String → Nat → M Unit)
    (s : St) (e : String) (hfail : contactsOutcome w = Except.error e) :
    backupContacts w sid onP s =
      (Except.error e,
       { s with requests := s.requests ++ contactsPhaseReqs w s.deviceToken sid }) := by
  cases hp : w.contactsPerm <;> cases he : w.contactsEnumOk <;>
    cases hr : respOk w.contactsStatus <;>
      simp [contactsOutcome, hp, he, hr] at hfail <;>
      simp [backupContacts, contactsPhaseReqs, contactsErrMsg, hp, he, hr, ← hfail]

theorem contactsOutcome_ok (w : World) (hok : contactsOutcome w = Except.ok ()) :
    w.contactsPerm = true ∧ w.contactsEnumOk = true ∧ respOk w.contactsStatus = true := by
  cases hp : w.contactsPerm <;> cases he : w.contactsEnumOk <;>
    cases hr : respOk w.contactsStatus <;>
      simp [contactsOutcome, hp, he, hr] at hok ⊢

/-! Shape lemmas for `batchEvents`. -/

theorem batchEvents_eq_map (cat : String) (t : Nat) (assets : List Asset) (p : Nat) :
    batchEvents cat p t assets =
      (List.range ((assets.length + 9) / 10)).map
        (fun i => { type := cat, processed := p + successesIn (assets.take (10 * (i + 1))),
                    total := t }) := by
  have H : ∀ n (assets : List Asset), assets.length ≤ n → ∀ p,
      batchEvents cat p t assets =
        (List.range ((assets.length + 9) / 10)).map
          (fun i => { type := cat, processed := p + successesIn (assets.take (10 * (i + 1))),
                      total := t }) := by
    intro n
    induction n with
    | zero =>
      intro assets hlen p
      have : assets = [] := List.length_eq_zero.mp (Nat.le_zero.mp hlen)
      subst this
      rw [batchEvents]
      simp
    | succ n ih =>
      intro assets hlen p
      cases hemp : assets.isEmpty
      · have hne : assets ≠ [] := by
          intro hnil; rw [hnil] at hemp; simp at hemp
        have hpos : 0 < assets.length := List.length_pos.mpr hne
        have hrec := ih (assets.drop 10)
          (by simp only [List.length_drop]; omega)
          (p + successesIn (assets.take 10))
        rw [batchEvents]
        simp only [hemp, Bool.false_eq_true, if_false, hrec]
        have hceil : (assets.length + 9) / 10 = ((assets.drop 10).length + 9) / 10 + 1 := by
          simp only [List.length_drop]
          omega
        rw [hceil, List.range_succ_eq_map]
        simp only [List.map_cons, List.map_map]
        rw [List.cons_eq_cons]
        refine ⟨by simp, ?_⟩
        apply List.map_congr_left
        intro i _
        simp only [Function.comp]
        congr 1
        have h1 : 10 * (i + 1 + 1) = 10 + 10 * (i + 1) := by ring
        rw [h1, List.take_add, successesIn_append, Nat.add_assoc]
      · have : assets = [] := List.isEmpty_iff.mp hemp
        subst this
        rw [batchEvents]
        simp
  exact H assets.length assets le_rfl p

theorem batchEvents_length (cat : String) (t : Nat) (assets : List Asset) (p : Nat) :
    (batchEvents cat p t assets).length = (assets.length + 9) / 10 := by
  rw [batchEvents_eq_map]
  simp

theorem batchEvents_processed_le (cat : String) (t : Nat) (assets : List Asset) (p : Nat) :
    ∀ e ∈ batchEvents cat p t assets, e.processed ≤ p + assets.length := by
  rw [batchEvents_eq_map]
  intro e he
  simp only [List.mem_map, List.mem_range] at he
  obtain ⟨i, _, rfl⟩ := he
  have h1 : successesIn (assets.take (10 * (i + 1))) ≤ (assets.take (10 * (i + 1))).length :=
    successesIn_le_length _
  have h2 : (assets.take (10 * (i + 1))).length ≤ assets.length := by
    simp [List.length_take]
  simp only
  omega

theorem batchEvents_getLast (cat : String) (t : Nat) (assets : List Asset) (p : Nat)
    (hne : assets ≠ []) :
    (batchEvents cat p t assets).getLast? =
      some { type := cat, processed := p + successesIn assets, total := t } := by
  have H : ∀ n (assets : List Asset), assets.length ≤ n → assets ≠ [] → ∀ p,
      (batchEvents cat p t assets).getLast? =
        some { type := cat, processed := p + successesIn assets, total := t } := by
    intro n
    induction n with
    | zero =>
      intro assets hlen hne p
      exact absurd (List.length_eq_zero.mp (Nat.le_zero.mp hlen)) hne
    | succ n ih =>
      intro assets hlen hne p
      have hemp : assets.isEmpty = false := by simpa [List.isEmpty_iff] using hne
      rw [batchEvents]
      simp only [hemp, Bool.false_eq_true, if_false]
      cases hdrop : (assets.drop 10).isEmpty
      · have hdne : assets.drop 10 ≠ [] := by
          intro hnil; rw [hnil] at hdrop; simp at hdrop
        have hpos : 0 < assets.length := List.length_pos.mpr hne
        have hrec := ih (assets.drop 10)
          (by simp only [List.length_drop]; omega) hdne
          (p + successesIn (assets.take 10))
        have htne : batchEvents cat (p + successesIn (assets.take 10)) t (assets.drop 10) ≠ [] := by
          intro hnil
          have hl := congrArg List.length hnil
          rw [batchEvents_length] at hl
          have hd : 0 < (assets.drop 10).length := List.length_pos.mpr hdne
          simp only [List.length_nil] at hl
          omega
        obtain ⟨x, xs, hxs⟩ := List.exists_cons_of_ne_nil htne
        rw [hxs, List.getLast?_cons_cons, ← hxs, hrec, Nat.add_assoc, successesIn_take_drop]
      · have hdnil : assets.drop 10 = [] := List.isEmpty_iff.mp hdrop
        have htake : assets.take 10 = assets := by
          have : assets.length ≤ 10 := by
            have := congrArg List.length hdnil
            simp only [List.length_drop, List.length_nil] at this
            omega
          exact List.take_of_length_le this
        rw [hdnil, batchEvents]
        simp [htake]
  exact H assets.length assets le_rfl hne p

/-! Category matching evaluated at the two categories `performFullBackup`
uses. -/

theorem enumAssets_photos (w : World) : enumAssets w "photos" = w.photos.take 10000 := by
  have h1 : typeMatches "photos" .photo = true := rfl
  have h2 : typeMatches "photos" .video = false := rfl
  simp [enumAssets, h1, h2]

theorem enumAssets_videos (w : World) : enumAssets w "videos" = w.videos.take 10000 := by
  have h1 : typeMatches "videos" .photo = false := rfl
  have h2 : typeMatches "videos" .video = true := rfl
  simp [enumAssets, h1, h2]

theorem countMedia_pos (w : World) (ty : MediaType) (h : 0 < countMedia w ty) :
    w.mediaPerm = true ∧ w.mediaEnumOk = true ∧ mediaList w ty ≠ [] := by
  cases hp : w.mediaPerm <;> cases he : w.mediaEnumOk <;>
    simp [countMedia, hp, he] at h ⊢
  exact List.length_pos.mp h

theorem enumAssets_photos_ne (w : World) (h : 0 < countMedia w .photo) :
    enumAssets w "photos" ≠ [] := by
  obtain ⟨-, -, hne⟩ := countMedia_pos w .photo h
  rw [enumAssets_photos]
  simp only [ne_eq, List.take_eq_nil_iff]
  simpa [mediaList] using hne

theorem enumAssets_videos_ne (w : World) (h : 0 < countMedia w .video) :
    enumAssets w "videos" ≠ [] := by
  obtain ⟨-, -, hne⟩ := countMedia_pos w .video h
  rw [enumAssets_videos]
  simp only [ne_eq, List.take_eq_nil_iff]
  simpa [mediaList] using hne

/-! Characterization of the inner block and of the whole run. -/

theorem innerBackup_spec (w : World) (s : St) :
    innerBackup w w.sessionId (countContacts w) (countMedia w .photo) (countMedia w .video) s =
      (innerResult w,
       { s with requests := s.requests ++ innerReqs w s.deviceToken,
                progress := s.progress ++ innerProg w,
                statuses := s.statuses ++ innerStatuses w }) := by
  cases hco : contactsOutcome w with
  | error e =>
    have hbc : ∀ s1 : St, backupContacts w w.sessionId (ctLogger (countContacts w)) s1 =
        (Except.error e,
         { s1 with requests := s1.requests ++ contactsPhaseReqs w s1.deviceToken w.sessionId }) :=
      fun s1 => backupContacts_fail w w.sessionId _ s1 e hco
    cases hmf : w.markFailedFetchOk <;>
      simp [innerBackup, hbc, innerResult, innerReqs, innerProg, innerStatuses, hco, hmf,
        List.append_assoc]
  | ok u =>
    cases u
    obtain ⟨hp, he, hr⟩ := contactsOutcome_ok w hco
    have hbc : ∀ s1 : St, backupContacts w w.sessionId (ctLogger (countContacts w)) s1 =
        (Except.ok true,
         { s1 with requests := s1.requests ++ [Request.contacts s1.deviceToken w.sessionId w.contacts],
                   progress := s1.progress ++
                     [{ type := "contacts", processed := w.contacts.length,
                        total := countContacts w }] }) := by
      intro s1
      rw [backupContacts_run w w.sessionId _ s1 hp he hr]
      simp
    have hcc : countContacts w = w.contacts.length := by simp [countContacts, hp, he]
    rcases Nat.eq_zero_or_pos (countMedia w MediaType.photo) with hph | hph
    · rcases Nat.eq_zero_or_pos (countMedia w MediaType.video) with hpv | hpv
      · cases hcs : respOk w.completeStatus <;> cases hmf : w.markFailedFetchOk <;>
          simp [innerBackup, hbc, completeBackupSession_spec, innerResult, innerReqs,
            innerProg, innerStatuses, contactsPhaseReqs, hco, hp, he, hph, hpv, hcs, hmf,
            completeErrMsg, List.append_assoc]
      · obtain ⟨hpm, hen, -⟩ := countMedia_pos w .video hpv
        have hbv : ∀ s1 : St, backupMedia w w.sessionId "videos" progLogger s1 =
            (Except.ok true,
             { s1 with requests :=
                            s1.requests ++
                              batchRequests s1.deviceToken w.sessionId (enumAssets w "videos"),
                       progress := s1.progress ++ mediaPhaseEvents w "videos" }) :=
          fun s1 => backupMedia_batches w w.sessionId "videos" s1 hpm hen
            (enumAssets_videos_ne w hpv)
        cases hcs : respOk w.completeStatus <;> cases hmf : w.markFailedFetchOk <;>
          simp [innerBackup, hbc, hbv, completeBackupSession_spec, innerResult, innerReqs,
            innerProg, innerStatuses, contactsPhaseReqs, mediaPhaseReqs, hco, hp, he,
            hph, hpv, hcs, hmf, completeErrMsg, List.append_assoc]
    · obtain ⟨hpm, hen, -⟩ := countMedia_pos w .photo hph
      have hbp : ∀ s1 : St, backupMedia w w.sessionId "photos" progLogger s1 =
          (Except.ok true,
           { s1 with requests :=
                          s1.requests ++
                            batchRequests s1.deviceToken w.sessionId (enumAssets w "photos"),
                     progress := s1.progress ++ mediaPhaseEvents w "photos" }) :=
        fun s1 => backupMedia_batches w w.sessionId "photos" s1 hpm hen
          (enumAssets_photos_ne w hph)
      rcases Nat.eq_zero_or_pos (countMedia w MediaType.video) with hpv | hpv
      · cases hcs : respOk w.completeStatus <;> cases hmf : w.markFailedFetchOk <;>
          simp [innerBackup, hbc, hbp, completeBackupSession_spec, innerResult, innerReqs,
            innerProg, innerStatuses, contactsPhaseReqs, mediaPhaseReqs, hco, hp, he,
            hph, hpv, hcs, hmf, completeErrMsg, List.append_assoc]
      · have hbv : ∀ s1 : St, backupMedia w w.sessionId "videos" progLogger s1 =
            (Except.ok true,
             { s1 with requests :=
                            s1.requests ++
                              batchRequests s1.deviceToken w.sessionId (enumAssets w "videos"),
                       progress := s1.progress ++ mediaPhaseEvents w "videos" }) :=
          fun s1 => backupMedia_batches w w.sessionId "videos" s1 hpm hen
            (enumAssets_videos_ne w hpv)
        cases hcs : respOk w.completeStatus <;> cases hmf : w.markFailedFetchOk <;>
          simp [innerBackup, hbc, hbp, hbv, completeBackupSession_spec, innerResult, innerReqs,
            innerProg, innerStatuses, contactsPhaseReqs, mediaPhaseReqs, hco, hp, he,
            hph, hpv, hcs, hmf, completeErrMsg, List.append_assoc]

theorem mainFlow_spec (w : World) (s : St) (hinit : s.isInitialized = true) :
    mainFlow w s =
      (runResult w,
       { s with requests := s.requests ++ runRequests w s.deviceToken,
                progress := s.progress ++ runProgress w,
                statuses := s.statuses ++ mainStatuses w }) := by
  have hstart : ∀ msgs : List String,
      startBackupSession w (countContacts w) (countMedia w .photo) (countMedia w .video)
          { s with statuses := msgs } =
        ((if respOk w.startStatus then Except.ok w.sessionId
          else Except.error (startErrMsg w)),
         { s with statuses := msgs,
                  requests := s.requests ++
                    [Request.start s.deviceToken (countContacts w) (countMedia w .photo)
                      (countMedia w .video)] }) := by
    intro msgs
    rw [startBackupSession_initialized w _ _ _ _ (by simpa using hinit)]
  cases hr : respOk w.startStatus <;>
    simp [mainFlow, getLocalContactsCount_spec, getLocalMediaCount_spec, hstart,
      innerBackup_spec, runResult, runRequests, runProgress, mainStatuses, hr,
      List.append_assoc]

theorem performFullBackup_spec_initialized (w : World) (s : St)
    (hinit : s.isInitialized = true) :
    performFullBackup w s =
      (runResult w,
       { s with requests := s.requests ++ runRequests w s.deviceToken,
                progress := s.progress ++ runProgress w,
                statuses := s.statuses ++ runStatuses w }) := by
  have hmf : ∀ msgs : List String,
      mainFlow w { s with statuses := msgs } =
        (runResult w,
         { s with requests := s.requests ++ runRequests w s.deviceToken,
                  progress := s.progress ++ runProgress w,
                  statuses := msgs ++ mainStatuses w }) := by
    intro msgs
    rw [mainFlow_spec w { s with statuses := msgs } (by simpa using hinit)]
  simp only [hinit] at hmf
  cases hres : runResult w <;>
    simp [performFullBackup, hinit, hmf, hres, runStatuses, List.append_assoc]

theorem performFullBackup_spec_uninit_stored (w : World) (s : St) (t : String)
    (hinit : s.isInitialized = false) (hst : s.storage = some t) (ht : t ≠ "") :
    performFullBackup w s =
      (runResult w,
       { s with deviceToken := some t, isInitialized := true,
                requests := s.requests ++ runRequests w (some t),
                progress := s.progress ++ runProgress w,
                statuses := s.statuses ++ runStatuses w }) := by
  have hini : ∀ msgs : List String,
      initService w { s with statuses := msgs } =
        (Except.ok true,
         { s with deviceToken := some t, isInitialized := true, statuses := msgs }) := by
    intro msgs
    rw [initService_stored w { s with statuses := msgs } t (by simpa using hst) ht]
  have hmf : ∀ msgs : List String,
      mainFlow w { s with deviceToken := some t, isInitialized := true, statuses := msgs } =
        (runResult w,
         { s with deviceToken := some t, isInitialized := true,
                  requests := s.requests ++ runRequests w (some t),
                  progress := s.progress ++ runProgress w,
                  statuses := msgs ++ mainStatuses w }) := by
    intro msgs
    rw [mainFlow_spec w _ (by simp)]
  simp only [hinit] at hini
  cases hres : runResult w <;>
    simp [performFullBackup, hinit, hini, hmf, hres, runStatuses, List.append_assoc]

theorem performFullBackup_spec_uninit_reg (w : World) (s : St)
    (hinit : s.isInitialized = false) (hfal : tokenFalsy s.storage = true)
    (hreg : respOk w.regStatus = true) :
    performFullBackup w s =
      (runResult w,
       { s with deviceToken := some w.regToken, storage := some w.regToken,
                isInitialized := true,
                requests := s.requests ++
                  Request.register s.storage :: runRequests w (some w.regToken),
                progress := s.progress ++ runProgress w,
                statuses := s.statuses ++ runStatuses w }) := by
  have hini : ∀ msgs : List String,
      initService w { s with statuses := msgs } =
        (Except.ok true,
         { s with deviceToken := some w.regToken, storage := some w.regToken,
                  isInitialized := true, statuses := msgs,
                  requests := s.requests ++ [Request.register s.storage] }) := by
    intro msgs
    rw [initService_register_ok w { s with statuses := msgs } (by simpa using hfal) hreg]
  have hmf : ∀ msgs : List String,
      mainFlow w
          { s with deviceToken := some w.regToken, storage := some w.regToken,
                   isInitialized := true, statuses := msgs,
                   requests := s.requests ++ [Request.register s.storage] } =
        (runResult w,
         { s with deviceToken := some w.regToken, storage := some w.regToken,
                  isInitialized := true,
                  requests := (s.requests ++ [Request.register s.storage]) ++
                    runRequests w (some w.regToken),
                  progress := s.progress ++ runProgress w,
                  statuses := msgs ++ mainStatuses w }) := by
    intro msgs
    rw [mainFlow_spec w _ (by simp)]
  simp only [hinit] at hini
  cases hres : runResult w <;>
    simp [performFullBackup, hinit, hini, hmf, hres, runStatuses, List.append_assoc]

/-- Every request of the inner block carries the token the run holds. -/
theorem innerReqs_token (w : World) (tok : Option String) :
    ∀ r ∈ innerReqs w tok, r.token = tok := by
  have hcont : ∀ r ∈ contactsPhaseReqs w tok w.sessionId, Request.token r = tok := by
    intro r hm
    simp only [contactsPhaseReqs] at hm
    split at hm
    · simp only [List.mem_singleton] at hm
      subst hm
      rfl
    · simp at hm
  have hphase : ∀ cat, ∀ r ∈ mediaPhaseReqs w tok cat, Request.token r = tok := by
    intro cat r hm
    simp only [mediaPhaseReqs, batchRequests, List.mem_map] at hm
    obtain ⟨a, -, rfl⟩ := hm
    rfl
  intro r hr
  rcases hco : contactsOutcome w with e | u <;>
    simp only [innerReqs, hco, List.mem_append] at hr
  · rcases hr with hr | hr
    · exact hcont r hr
    · simp only [List.mem_singleton] at hr
      subst hr
      rfl
  · rcases hr with ((hr | hr) | hr) | hr
    · exact hcont r hr
    · split at hr
      · exact hphase "photos" r hr
      · simp at hr
    · split at hr
      · exact hphase "videos" r hr
      · simp at hr
    · split at hr <;> simp at hr
      · subst hr
        rfl
      · rcases hr with rfl | rfl <;> rfl

/-- Every request of a characterised run carries the token the run holds. -/
theorem runRequests_token (w : World) (tok : Option String) :
    ∀ r ∈ runRequests w tok, r.token = tok := by
  intro r hr
  simp only [runRequests, List.mem_cons] at hr
  rcases hr with rfl | hr
  · rfl
  · split at hr
    · exact innerReqs_token w tok r hr
    · simp at hr

/-! Helper lemmas about the request and progress projections. -/

theorem completionCalls_append (l1 l2 : List Request) :
    completionCalls (l1 ++ l2) = completionCalls l1 ++ completionCalls l2 := by
  simp [completionCalls]

theorem completionCalls_batchRequests (tok : Option String) (sid : String) (assets : List Asset) :
    completionCalls (batchRequests tok sid assets) = [] := by
  induction assets with
  | nil => rfl
  | cons a rest ih => simpa [batchRequests, completionCalls] using ih

theorem completionCalls_contactsPhase (w : World) (tok : Option String) (sid : String) :
    completionCalls (contactsPhaseReqs w tok sid) = [] := by
  simp only [contactsPhaseReqs]
  split <;> rfl

theorem completionCalls_nil : completionCalls [] = [] := rfl

theorem completionCalls_cons_start (t : Option String) (a b c : Nat) (l : List Request) :
    completionCalls (Request.start t a b c :: l) = completionCalls l := rfl

theorem completionCalls_cons_complete (t : Option String) (sid st : String)
    (e : Option String) (l : List Request) :
    completionCalls (Request.complete t sid st e :: l) = (st, e) :: completionCalls l := rfl

theorem completionCalls_runRequests (w : World) (tok : Option String) :
    completionCalls (runRequests w tok) =
      if respOk w.startStatus then
        match contactsOutcome w with
        | Except.error e => [("failed", some e)]
        | Except.ok _ =>
            if respOk w.completeStatus then [("completed", (none : Option String))]
            else [("completed", none), ("failed", some (completeErrMsg w))]
      else [] := by
  cases hr : respOk w.startStatus <;>
    simp only [runRequests, hr, if_true, if_false, Bool.false_eq_true,
      completionCalls_cons_start]
  · simp [completionCalls_nil]
  · rcases hco : contactsOutcome w with e | u <;>
      cases hcs : respOk w.completeStatus <;>
        simp [innerReqs, hco, hcs, completionCalls_append, completionCalls_batchRequests,
          completionCalls_contactsPhase, completionCalls_nil, completionCalls_cons_complete,
          mediaPhaseReqs, apply_ite completionCalls]

theorem batchEvents_type (cat : String) (t : Nat) (assets : List Asset) (p : Nat) :
    ∀ e ∈ batchEvents cat p t assets, e.type = cat := by
  rw [batchEvents_eq_map]
  intro e he
  simp only [List.mem_map] at he
  obtain ⟨i, -, rfl⟩ := he
  rfl

theorem runProgress_type_photo (w : World) (hph : countMedia w .photo = 0) :
    ∀ e ∈ runProgress w, e.type ≠ "photos" := by
  intro e he
  simp only [runProgress] at he
  split at he
  · simp only [innerProg] at he
    split at he
    · simp at he
    · simp only [List.mem_cons, List.mem_append] at he
      rcases he with rfl | he
      · simp
      · rcases he with he | he
        · rw [hph] at he
          simp at he
        · split at he
          · have := batchEvents_type "videos" _ _ _ e (by simpa [mediaPhaseEvents] using he)
            rw [this]
            decide
          · simp at he
  · simp at he

theorem runProgress_type_video (w : World) (hpv : countMedia w .video = 0) :
    ∀ e ∈ runProgress w, e.type ≠ "videos" := by
  intro e he
  simp only [runProgress] at he
  split at he
  · simp only [innerProg] at he
    split at he
    · simp at he
    · simp only [List.mem_cons, List.mem_append] at he
      rcases he with rfl | he
      · simp
      · rcases he with he | he
        · split at he
          · have := batchEvents_type "photos" _ _ _ e (by simpa [mediaPhaseEvents] using he)
            rw [this]
            decide
          · simp at he
        · rw [hpv] at he
          simp at he
  · simp at he

theorem isMediaCallOf_runRequests_photo (w : World) (tok : Option String)
    (hph : countMedia w .photo = 0)
    (hwfV : ∀ a ∈ w.videos, a.mediaType = MediaType.video) :
    ∀ r ∈ runRequests w tok, isMediaCallOf MediaType.photo r = false := by
  intro r hr
  simp only [runRequests, List.mem_cons] at hr
  rcases hr with rfl | hr
  · rfl
  · split at hr
    · rcases hco : contactsOutcome w with e | u <;>
        simp only [innerReqs, hco, List.mem_append] at hr
      · rcases hr with hr | hr
        · simp only [contactsPhaseReqs] at hr
          split at hr <;> simp at hr
          subst hr
          rfl
        · simp only [List.mem_singleton] at hr
          subst hr
          rfl
      · rcases hr with ((hr | hr) | hr) | hr
        · simp only [contactsPhaseReqs] at hr
          split at hr <;> simp at hr
          subst hr
          rfl
        · rw [hph] at hr
          simp at hr
        · split at hr
          · simp only [mediaPhaseReqs, enumAssets_videos, batchRequests, List.mem_map] at hr
            obtain ⟨a, ha, rfl⟩ := hr
            have hv : a.mediaType = MediaType.video := hwfV a (List.mem_of_mem_take ha)
            simp [isMediaCallOf, hv]
          · simp at hr
        · split at hr <;> simp at hr
          · subst hr
            rfl
          · rcases hr with rfl | rfl <;> rfl
    · simp at hr

theorem isMediaCallOf_runRequests_video (w : World) (tok : Option String)
    (hpv : countMedia w .video = 0)
    (hwfP : ∀ a ∈ w.photos, a.mediaType = MediaType.photo) :
    ∀ r ∈ runRequests w tok, isMediaCallOf MediaType.video r = false := by
  intro r hr
  simp only [runRequests, List.mem_cons] at hr
  rcases hr with rfl | hr
  · rfl
  · split at hr
    · rcases hco : contactsOutcome w with e | u <;>
        simp only [innerReqs, hco, List.mem_append] at hr
      · rcases hr with hr | hr
        · simp only [contactsPhaseReqs] at hr
          split at hr <;> simp at hr
          subst hr
          rfl
        · simp only [List.mem_singleton] at hr
          subst hr
          rfl
      · rcases hr with ((hr | hr) | hr) | hr
        · simp only [contactsPhaseReqs] at hr
          split at hr <;> simp at hr
          subst hr
          rfl
        · split at hr
          · simp only [mediaPhaseReqs, enumAssets_photos, batchRequests, List.mem_map] at hr
            obtain ⟨a, ha, rfl⟩ := hr
            have hp2 : a.mediaType = MediaType.photo := hwfP a (List.mem_of_mem_take ha)
            simp [isMediaCallOf, hp2]
          · simp at hr
        · rw [hpv] at hr
          simp at hr
        · split at hr <;> simp at hr
          · subst hr
            rfl
          · rcases hr with rfl | rfl <;> rfl
    · simp at hr

/-! The claims. -/

/-- C10: for every call to `getLocalContactsCount` or `getLocalMediaCount`
in which the corresponding permission is not granted (or the underlying
enumeration fails), the function returns 0 and does not raise; moreover
neither function ever raises at all, so the count phase of
`performFullBackup` is never aborted by a permission denial. -/
theorem claim_C10 (w : World) (s : St) :
    ((w.contactsPerm = false ∨ w.contactsEnumOk = false) →
        getLocalContactsCount w s = (Except.ok 0, s)) ∧
    ((w.mediaPerm = false ∨ w.mediaEnumOk = false) →
        ∀ ty, getLocalMediaCount w ty s = (Except.ok 0, s)) ∧
    (∃ n, (getLocalContactsCount w s).1 = Except.ok n) ∧
    (∀ ty, ∃ n, (getLocalMediaCount w ty s).1 = Except.ok n) := by
  refine ⟨?_, ?_, ?_, ?_⟩
  · intro h
    rw [getLocalContactsCount_spec]
    rcases h with h | h <;> simp [countContacts, h]
  · intro h ty
    rw [getLocalMediaCount_spec]
    rcases h with h | h <;> simp [countMedia, h]
  · exact ⟨countContacts w, by rw [getLocalContactsCount_spec]⟩
  · exact fun ty => ⟨countMedia w ty, by rw [getLocalMediaCount_spec]⟩

theorem claim_C10_witness :
    getLocalContactsCount { wBase with contactsPerm := false } (St0 none) =
      (Except.ok 0, St0 none) :=
  (claim_C10 { wBase with contactsPerm := false } (St0 none)).1 (Or.inl rfl)

/-- C8: for every call to `backupMedia` whose enumeration yields zero
matching assets, exactly one progress update with processed = 0 and
total = 0 is reported, the operation returns success immediately, and no
batches run: no media-upload request is issued. -/
theorem claim_C8 (w : World) (sid cat : String) (s : St)
    (hp : w.mediaPerm = true) (he : w.mediaEnumOk = true)
    (hreq : s.requests = []) (hprog : s.progress = [])
    (hemp : enumAssets w cat = []) :
    (backupMedia w sid cat progLogger s).1 = Except.ok true ∧
    ((backupMedia w sid cat progLogger s).2).progress =
      [{ type := cat, processed := 0, total := 0 }] ∧
    ((backupMedia w sid cat progLogger s).2).requests = [] := by
  have hbm := backupMedia_empty w sid cat s hp he hemp
  rw [hbm]
  simp [hreq, hprog]

theorem claim_C8_witness :
    (backupMedia wBase "sess1" "videos" progLogger (St0 (some "tok"))).1 = Except.ok true ∧
    ((backupMedia wBase "sess1" "videos" progLogger (St0 (some "tok"))).2).progress =
      [{ type := "videos", processed := 0, total := 0 }] ∧
    ((backupMedia wBase "sess1" "videos" progLogger (St0 (some "tok"))).2).requests = [] :=
  claim_C8 wBase "sess1" "videos" (St0 (some "tok")) rfl rfl rfl rfl (by decide)

/-- C4: for every asset count N > 0 enumerated by `backupMedia` (batch size
10), the batch loop reports progress exactly once per batch, ceil(N/10)
times in all, each report carrying the cumulative processed count (the
successes among the assets attempted so far) and the fixed total N, and
every reported processed count is at most N. -/
theorem claim_C4 (w : World) (sid cat : String) (s : St)
    (hp : w.mediaPerm = true) (he : w.mediaEnumOk = true)
    (hprog : s.progress = []) (hN : 0 < (enumAssets w cat).length) :
    (backupMedia w sid cat progLogger s).1 = Except.ok true ∧
    ((backupMedia w sid cat progLogger s).2).progress =
      (List.range (((enumAssets w cat).length + 9) / 10)).map
        (fun i => { type := cat,
                    processed := successesIn ((enumAssets w cat).take (10 * (i + 1))),
                    total := (enumAssets w cat).length }) ∧
    ((backupMedia w sid cat progLogger s).2).progress.length =
      ((enumAssets w cat).length + 9) / 10 ∧
    (∀ e ∈ ((backupMedia w sid cat progLogger s).2).progress,
      e.processed ≤ (enumAssets w cat).length) := by
  have hne : enumAssets w cat ≠ [] := by
    intro hnil
    rw [hnil] at hN
    simp at hN
  have hbm := backupMedia_batches w sid cat s hp he hne
  rw [hbm]
  refine ⟨rfl, ?_, ?_, ?_⟩
  · rw [hprog, batchEvents_eq_map]
    simp
  · simp [hprog, batchEvents_length]
  · intro e he2
    simp only [hprog, List.nil_append] at he2
    simpa using batchEvents_processed_le cat (enumAssets w cat).length (enumAssets w cat) 0 e he2

theorem claim_C4_witness :
    ((backupMedia wBatch12 "sess1" "photos" progLogger (St0 (some "tok"))).2).progress.length = 2 := by
  have h := claim_C4 wBatch12 "sess1" "photos" (St0 (some "tok")) rfl rfl rfl (by decide)
  rw [h.2.2.1]
  decide

/-- C5: per-item upload failures inside `backupMedia` are caught: every
enumerated asset is attempted exactly once (one upload request per asset,
in order, regardless of other items' failures), the operation still
returns success, and the final cumulative processed count is exactly the
number of successful uploads. -/
theorem claim_C5 (w : World) (sid cat : String) (s : St)
    (hp : w.mediaPerm = true) (he : w.mediaEnumOk = true)
    (hreq : s.requests = []) (hprog : s.progress = [])
    (hne : enumAssets w cat ≠ []) :
    (backupMedia w sid cat progLogger s).1 = Except.ok true ∧
    ((backupMedia w sid cat progLogger s).2).requests =
      batchRequests s.deviceToken sid (enumAssets w cat) ∧
    ((backupMedia w sid cat progLogger s).2).requests.length = (enumAssets w cat).length ∧
    ((backupMedia w sid cat progLogger s).2).progress.getLast? =
      some { type := cat, processed := successesIn (enumAssets w cat),
             total := (enumAssets w cat).length } := by
  have hbm := backupMedia_batches w sid cat s hp he hne
  rw [hbm]
  refine ⟨rfl, by simp [hreq], ?_, ?_⟩
  · simp [hreq, batchRequests]
  · rw [hprog]
    simpa using batchEvents_getLast cat (enumAssets w cat).length (enumAssets w cat) 0 hne

theorem claim_C5_witness :
    ((backupMedia wBatch12 "sess1" "photos" progLogger (St0 (some "tok"))).2).progress.getLast? =
      some { type := "photos", processed := 11, total := 12 } := by
  have h := claim_C5 wBatch12 "sess1" "photos" (St0 (some "tok")) rfl rfl rfl rfl (by decide)
  rw [h.2.2.2]
  decide

/-- C9 as stated is false: with contacts permission granted but a
rejecting server, `backupContacts` issues the single request but reports
no progress update at all (it throws before `onProgress`): zero updates,
not exactly one. -/
theorem claim_C9_counterexample :
    ((backupContacts wContactsFail "sess1" emitPair (St0 (some "tok"))).2).pairEvents = [] ∧
    ((backupContacts wContactsFail "sess1" emitPair (St0 (some "tok"))).2).requests =
      [Request.contacts (none : Option String) "sess1" [cAlice]] ∧
    (backupContacts wContactsFail "sess1" emitPair (St0 (some "tok"))).1 =
      Except.error (contactsErrMsg wContactsFail) := by
  refine ⟨rfl, rfl, rfl⟩

/-- C9 amended: with contacts permission granted and a successful
enumeration, the full contact set is read once and sent as one request
body; when the server accepts it, exactly one progress update is reported
with processed = the number of contacts read (also for an empty contact
set, which still issues exactly one request with an empty list and
reports processed = 0); when the server rejects it, the single request is
still issued but no progress update is reported and the error
propagates. -/
theorem claim_C9_amended (w : World) (sid : String) (s : St)
    (hp : w.contactsPerm = true) (he : w.contactsEnumOk = true)
    (hreq : s.requests = []) (hpair : s.pairEvents = []) :
    (respOk w.contactsStatus = true →
      backupContacts w sid emitPair s =
        (Except.ok true,
         { s with requests := [Request.contacts s.deviceToken sid w.contacts],
                  pairEvents := [("contacts", w.contacts.length)] })) ∧
    (respOk w.contactsStatus = false →
      backupContacts w sid emitPair s =
        (Except.error (contactsErrMsg w),
         { s with requests := [Request.contacts s.deviceToken sid w.contacts] })) := by
  constructor
  · intro hr
    rw [backupContacts_run w sid emitPair s hp he hr]
    simp [hreq, hpair]
  · intro hr
    have hco : contactsOutcome w = Except.error (contactsErrMsg w) := by
      simp [contactsOutcome, hp, he, hr]
    rw [backupContacts_fail w sid emitPair s (contactsErrMsg w) hco]
    simp [hreq, contactsPhaseReqs, hp, he]

theorem claim_C9_witness :
    backupContacts { wBase with contacts := [] } "sess1" emitPair (St0 (some "tok")) =
      (Except.ok true,
       { St0 (some "tok") with requests := [Request.contacts none "sess1" []],
                               pairEvents := [("contacts", 0)] }) := by
  have h := claim_C9_amended { wBase with contacts := [] } "sess1" (St0 (some "tok"))
    rfl rfl rfl rfl
  simpa using h.1 rfl

/-- C2 as stated is false: on a failed registration, `initialize` does
return normally — the error is caught, logged and converted into the
return value `false`. -/
theorem claim_C2_counterexample :
    (initService wRegFail (St0 none)).1 = Except.ok false := rfl

/-- C2 amended: `registerDevice` itself rethrows its error on a
non-successful HTTP response, but `initialize` swallows it: when no token
is stored and registration fails, `initialize` catches the error and
returns normally with `false` (and the service stays uninitialized, with
a null token). -/
theorem claim_C2_amended (w : World) (s : St)
    (hst : s.storage = none) (hreg : respOk w.regStatus = false) :
    (registerDevice w s).1 = Except.error (regErrMsg w) ∧
    initService w s =
      (Except.ok false,
       { s with deviceToken := none, requests := s.requests ++ [Request.register none] }) := by
  constructor
  · rw [registerDevice_fail w s hreg]
  · exact initService_register_fail w s hst hreg

theorem claim_C2_witness :
    initService wRegFail (St0 none) =
      (Except.ok false, { St0 none with requests := [Request.register none] }) := by
  have h := claim_C2_amended wRegFail (St0 none) rfl (by decide)
  simpa using h.2

/-- C1 as stated is false: in a run where steps 4-6 all succeed but the
session-completion response is non-successful, the completion endpoint is
called twice — once with status "completed" (which fails) and then again
by the catch block with status "failed". -/
theorem claim_C1_counterexample :
    completionCalls ((performFullBackup wCompleteFail (St0 (some "tok0"))).2).requests =
      [("completed", none), ("failed", some (completeErrMsg wCompleteFail))] := by
  rw [performFullBackup_spec_uninit_stored wCompleteFail (St0 (some "tok0")) "tok0" rfl rfl
    (by decide)]
  have h1 : respOk wCompleteFail.startStatus = true := by decide
  have h2 : contactsOutcome wCompleteFail = Except.ok () := by rfl
  have h3 : respOk wCompleteFail.completeStatus = false := by decide
  simp [completionCalls_runRequests, h1, h2, h3, St0]

/-- C1 amended: in a run that fails before the backup phases (session
start rejected) no completion call is issued; in a run that reaches the
phases, completion is called exactly once with status "completed" (and
the payload returned) when steps 4-6 and the completion call itself all
succeed, exactly once with status "failed" carrying the original error's
message when a step of 4-6 fails, and twice ("completed" then a
best-effort "failed") when steps 4-6 succeed but the completion call
fails. -/
theorem claim_C1_amended (w : World) (s : St)
    (hinit : s.isInitialized = true) (hreq : s.requests = []) :
    (respOk w.startStatus = false →
        completionCalls ((performFullBackup w s).2).requests = []) ∧
    (respOk w.startStatus = true →
      (∀ e, contactsOutcome w = Except.error e →
          completionCalls ((performFullBackup w s).2).requests = [("failed", some e)] ∧
          (performFullBackup w s).1 = Except.error e) ∧
      (contactsOutcome w = Except.ok () →
        (respOk w.completeStatus = true →
            completionCalls ((performFullBackup w s).2).requests = [("completed", none)] ∧
            (performFullBackup w s).1 = Except.ok w.completePayload) ∧
        (respOk w.completeStatus = false →
            completionCalls ((performFullBackup w s).2).requests =
              [("completed", none), ("failed", some (completeErrMsg w))] ∧
            (performFullBackup w s).1 = Except.error (completeErrMsg w)))) := by
  have hpf := performFullBackup_spec_initialized w s hinit
  have hcc : completionCalls ((performFullBackup w s).2).requests =
      completionCalls (runRequests w s.deviceToken) := by
    rw [hpf]
    simp [hreq]
  have hr1 : (performFullBackup w s).1 = runResult w := by
    rw [hpf]
  rw [hcc, hr1, completionCalls_runRequests]
  constructor
  · intro h
    simp [h]
  · intro hstart
    constructor
    · intro e hco
      simp [hstart, hco, runResult, innerResult]
    · intro hco
      constructor
      · intro hcs
        simp [hstart, hco, hcs, runResult, innerResult]
      · intro hcs
        simp [hstart, hco, hcs, runResult, innerResult]

theorem claim_C1_witness :
    completionCalls ((performFullBackup wBase stInit).2).requests = [("completed", none)] ∧
    (performFullBackup wBase stInit).1 = Except.ok wBase.completePayload := by
  have h := claim_C1_amended wBase stInit rfl rfl
  exact ((h.2 rfl).2 rfl).1 rfl

/-- C6: when a backup phase of steps 4-6 fails (in this model: the contact
phase, with any of its three failure modes), the orchestrator attempts
exactly one best-effort "mark session failed" completion call carrying
the original error's message, and rethrows the original error unchanged
to the caller — for every world, in particular whether or not the
mark-failed call itself succeeds (`markFailedFetchOk` is unconstrained),
so a failure of the secondary call is not propagated. -/
theorem claim_C6 (w : World) (s : St) (e : String)
    (hinit : s.isInitialized = true) (hreq : s.requests = [])
    (hs : respOk w.startStatus = true) (hc : contactsOutcome w = Except.error e) :
    (performFullBackup w s).1 = Except.error e ∧
    completionCalls ((performFullBackup w s).2).requests = [("failed", some e)] := by
  have hpf := performFullBackup_spec_initialized w s hinit
  constructor
  · rw [hpf]
    simp [runResult, innerResult, hs, hc]
  · rw [hpf]
    simp [hreq, completionCalls_runRequests, hs, hc]

theorem claim_C6_witness :
    (performFullBackup wContactsFail stInit).1 =
      Except.error (contactsErrMsg wContactsFail) ∧
    completionCalls ((performFullBackup wContactsFail stInit).2).requests =
      [("failed", some (contactsErrMsg wContactsFail))] :=
  claim_C6 wContactsFail stInit (contactsErrMsg wContactsFail) rfl rfl (by decide) rfl

/-- C3 as stated is false: `getHeaders` attaches whatever
`this.deviceToken` holds, null included. When no token is stored and the
registration attempt fails, `initialize` swallows the failure and
`startBackupSession` still sends the start request with a null token. -/
theorem claim_C3_counterexample :
    ((startBackupSession wRegFail 0 0 0 (St0 none)).2).requests =
      [Request.register none, Request.start none 0 0 0] := by
  rfl

/-- C3 amended: when a usable device token is present — already loaded in
an initialized service, or persisted in storage as a non-empty string (a
persisted empty string is falsy to JS and triggers re-registration) —
every HTTP request of a `performFullBackup` run carries that token. When
no usable token is persisted and registration succeeds, the registration
request itself is sent first (carrying the loaded falsy token) and every
subsequent request of the run carries the freshly issued token. But if
registration fails, the failure is swallowed and requests are still sent,
with a null token. -/
theorem claim_C3_amended (w : World) (s : St) (t : String)
    (hreq : s.requests = []) :
    (s.isInitialized = true → s.deviceToken = some t →
        ∀ r ∈ ((performFullBackup w s).2).requests, Request.token r = some t) ∧
    (s.isInitialized = false → s.storage = some t → t ≠ "" →
        ∀ r ∈ ((performFullBackup w s).2).requests, Request.token r = some t) ∧
    (s.isInitialized = false → tokenFalsy s.storage = true → respOk w.regStatus = true →
        ((performFullBackup w s).2).requests =
          Request.register s.storage :: runRequests w (some w.regToken) ∧
        ∀ r ∈ runRequests w (some w.regToken), Request.token r = some w.regToken) := by
  refine ⟨?_, ?_, ?_⟩
  · intro hinit htok
    have hpf := performFullBackup_spec_initialized w s hinit
    rw [hpf]
    intro r hr
    simp only [hreq, htok, List.nil_append] at hr
    exact runRequests_token w (some t) r hr
  · intro hinit hst ht
    have hpf := performFullBackup_spec_uninit_stored w s t hinit hst ht
    rw [hpf]
    intro r hr
    simp only [hreq, List.nil_append] at hr
    exact runRequests_token w (some t) r hr
  · intro hinit hfal hregOk
    have hpf := performFullBackup_spec_uninit_reg w s hinit hfal hregOk
    rw [hpf]
    exact ⟨by simp [hreq], runRequests_token w (some w.regToken)⟩

theorem claim_C3_witness :
    Request.token (Request.start (some "tok0") 1 2 0) = some "tok0" := by
  apply (claim_C3_amended wBase (St0 (some "tok0")) "tok0" rfl).2.1 rfl rfl (by decide)
  rw [performFullBackup_spec_uninit_stored wBase (St0 (some "tok0")) "tok0" rfl rfl (by decide)]
  simp only [St0, runRequests, List.nil_append, List.mem_cons]
  left
  decide

/-- C7: in a run of `performFullBackup` with a zero declared photo total,
the photo phase is skipped entirely — no media-upload request for a photo
asset is issued and no "photos" progress event is reported; likewise for
videos; while the contact phase runs unconditionally: whenever the
session starts, the "Backing up contacts..." status is emitted, and with
the contacts permission granted the contacts request is issued even for
an empty contact set and zero media. -/
theorem claim_C7 (w : World) (s : St)
    (hinit : s.isInitialized = true) (hreq : s.requests = []) (hprog : s.progress = [])
    (hwfP : ∀ a ∈ w.photos, a.mediaType = MediaType.photo)
    (hwfV : ∀ a ∈ w.videos, a.mediaType = MediaType.video) :
    (countMedia w .photo = 0 →
        (∀ r ∈ ((performFullBackup w s).2).requests,
          isMediaCallOf MediaType.photo r = false) ∧
        (∀ e ∈ ((performFullBackup w s).2).progress, e.type ≠ "photos")) ∧
    (countMedia w .video = 0 →
        (∀ r ∈ ((performFullBackup w s).2).requests,
          isMediaCallOf MediaType.video r = false) ∧
        (∀ e ∈ ((performFullBackup w s).2).progress, e.type ≠ "videos")) ∧
    (respOk w.startStatus = true →
        "Backing up contacts..." ∈ ((performFullBackup w s).2).statuses) ∧
    (respOk w.startStatus = true → w.contactsPerm = true → w.contactsEnumOk = true →
        Request.contacts s.deviceToken w.sessionId w.contacts ∈
          ((performFullBackup w s).2).requests) := by
  have hpf := performFullBackup_spec_initialized w s hinit
  refine ⟨?_, ?_, ?_, ?_⟩
  · intro hph
    constructor
    · rw [hpf]
      intro r hr
      simp only [hreq, List.nil_append] at hr
      exact isMediaCallOf_runRequests_photo w s.deviceToken hph hwfV r hr
    · rw [hpf]
      intro e he2
      simp only [hprog, List.nil_append] at he2
      exact runProgress_type_photo w hph e he2
  · intro hpv
    constructor
    · rw [hpf]
      intro r hr
      simp only [hreq, List.nil_append] at hr
      exact isMediaCallOf_runRequests_video w s.deviceToken hpv hwfP r hr
    · rw [hpf]
      intro e he2
      simp only [hprog, List.nil_append] at he2
      exact runProgress_type_video w hpv e he2
  · intro hs2
    rw [hpf]
    simp [runStatuses, mainStatuses, innerStatuses, hs2]
  · intro hs2 hp he
    rw [hpf]
    rcases hco : contactsOutcome w with e | u <;>
      simp [hreq, runRequests, innerReqs, contactsPhaseReqs, hco, hs2, hp, he]

theorem claim_C7_witness :
    isMediaCallOf MediaType.photo (Request.start (some "tok0") 1 0 0) = false := by
  have h := claim_C7 { wBase with photos := [] } stInit rfl rfl rfl
    (by simp) (by simp [wBase])
  apply (h.1 (by decide)).1
  rw [performFullBackup_spec_initialized { wBase with photos := [] } stInit rfl]
  simp only [stInit, St0, runRequests, List.nil_append, List.mem_cons]
  left
  decide

end BackupApp
